import Mathlib

/-!
# Verification of the Go game-state adapter (`estimator/trainer/game/go.py`)

This file gives a shallow embedding of the Go environment adapter: the
action codec (`_coord_to_action` / `_action_to_coord`), the history
tracker (`np.roll`-based rotation in `_act`, `_format_state`), and the
game state machine (`GoGame.play_action`, `reset`, `get_reward`,
`get_result_string`, `__deepcopy__`).

The external board engine (pachi_py) is abstracted as an `Engine`
interface, following the repository's own design that treats it as an
opaque service.  Numpy arrays of shape `(n, n, c)` are represented
channel-major as `List Plane` with `Plane := List (List Int)`; the
`np.roll(·, 1, axis=-1)` followed by overwriting channel 0 in `_act`
becomes `cons` after `dropLast`.  Python exceptions are modelled by
returning the state reached at the raise point together with an error
value, so "state unchanged on failure" is a provable statement.
Python floats (komi, official_score) are modelled as rationals.
-/

/-- Error values that can surface through the adapter: `invalidAction` is
the codec-level range error named by the specification, `outOfBounds` is
the engine's rejection of an out-of-range row/column in its coordinate
decomposition, `illegalMove` is the engine's rejection of a structurally
valid move. -/
inductive GoError where
  | invalidAction
  | outOfBounds
  | illegalMove
deriving DecidableEq, Repr

deriving instance DecidableEq for Except

/-- One occupancy plane: a `board_size × board_size` grid of integers
(0/1 for occupancy planes). -/
abbrev Plane := List (List Int)

/-- The all-zero `n × n` plane (`np.zeros`). -/
def zeroPlane (n : Nat) : Plane :=
  List.replicate n (List.replicate n 0)

/-- The constant `n × n` plane of value `v` (`np.full`). -/
def constPlane (n : Nat) (v : Int) : Plane :=
  List.replicate n (List.replicate n v)

/-- A plane is well-shaped for board side `n`. -/
def shapedPlane (n : Nat) (p : Plane) : Prop :=
  p.length = n ∧ ∀ row ∈ p, row.length = n

instance (n : Nat) (p : Plane) : Decidable (shapedPlane n p) := by
  unfold shapedPlane; infer_instance

/-- Modelled from the spec: the external board engine (pachi_py) as an
opaque capability interface — move application, per-color board
encoding, terminal predicate, area score, coordinate decomposition and
board lifecycle.  `β` is the engine's board-handle type. -/
structure Engine (β : Type) where
  /-- Field accessor `board.size`. -/
  size : β → Nat
  /-- Method `board.ij_to_coord(i, j)`: row/column to native coordinate;
  the engine rejects out-of-range indices. -/
  ijToCoord : β → Nat → Nat → Except GoError Int
  /-- Method `board.coord_to_ij(c)`: native coordinate to row/column. -/
  coordToIJ : β → Int → Nat × Nat
  /-- Method `board.play(coord, color)`: returns the successor board handle or
  raises `IllegalMove`. -/
  play : β → Int → Nat → Except GoError β
  /-- Method `board.encode()[colorIdx]`: the occupancy plane of one color
  (0 = black, 1 = white). -/
  encode : β → Nat → Plane
  /-- Predicate `board.is_terminal`. -/
  isTerminal : β → Bool
  /-- Attribute `board.official_score` (Tromp–Taylor area score, positive favours
  white). -/
  officialScore : β → ℚ
  /-- Constructor `pachi_py.CreateBoard(board_size)`. -/
  create : Nat → β
  /-- Method `board.clone()`. -/
  clone : β → β

/-- Sentinel `pachi_py.PASS_COORD`. -/
def PASS_COORD : Int := -1

/-- Sentinel `pachi_py.RESIGN_COORD`. -/
def RESIGN_COORD : Int := -2

/-- Modelled from the spec: `pachi_py.stone_other`, the engine's color
swap (BLACK = 1 ↔ WHITE = 2). -/
def stone_other (c : Nat) : Nat :=
  if c = 1 then 2 else if c = 2 then 1 else c

/-- Constant `HISTORY` of the source module. -/
def HISTORY : Nat := 8

/-- Source function `_pass_action(board_size)`. -/
def _pass_action (board_size : Nat) : Nat :=
  board_size ^ 2

/-- Source function `_resign_action(board_size)`. -/
def _resign_action (board_size : Nat) : Nat :=
  board_size ^ 2 + 1

/-- Source function `_coord_to_action(board, c)`: converts Pachi coordinates to actions. -/
def _coord_to_action (E : Engine β) (board : β) (c : Int) : Nat :=
  if c = PASS_COORD then _pass_action (E.size board)
  else if c = RESIGN_COORD then _resign_action (E.size board)
  else
    let ij := E.coordToIJ board c
    ij.1 * E.size board + ij.2

/-- Source function `_action_to_coord(board, a)`: converts actions to Pachi coordinates.
Note that the only guards are the PASS/RESIGN comparisons; all other
values, in range or not, are handed to the engine's `ij_to_coord`. -/
def _action_to_coord (E : Engine β) (board : β) (a : Nat) : Except GoError Int :=
  if a = _pass_action (E.size board) then .ok PASS_COORD
  else if a = _resign_action (E.size board) then .ok RESIGN_COORD
  else E.ijToCoord board (a / E.size board) (a % E.size board)

/-- Source function `_format_state(history, player_color, board_size)`: concatenates the
2·HISTORY history planes with one constant colour-to-play plane of value
`player_color - 1` as the last channel. -/
def _format_state (history : List Plane) (player_color : Nat) (board_size : Nat) :
    List Plane :=
  history ++ [constPlane board_size ((player_color : Int) - 1)]

/-- The fields of `GoGame.__dict__`: the environment's mutable state.  `player_color`
is initialised from the constructor argument and then flipped by every
successful `_act`; the configuration-time colour is not stored
separately anywhere. -/
structure GoGame (β : Type) where
  board_size : Nat
  player_color : Nat
  komi : ℚ
  board : β
  done : Bool
  history : List Plane
  state : List Plane
deriving DecidableEq

/-- Source method `GoGame._komi(self)`. -/
def _komi (board_size : Nat) : ℚ :=
  if 14 ≤ board_size ∧ board_size ≤ 19 then 7.5
  else if 9 ≤ board_size ∧ board_size ≤ 13 then 5.5
  else 0

/-- Source method `GoGame.reset(self)`. -/
def GoGame.reset (E : Engine β) (s : GoGame β) : GoGame β :=
  { s with
    komi := _komi s.board_size
    board := E.create s.board_size
    done := false
    history := List.replicate (HISTORY * 2) (zeroPlane s.board_size)
    state := List.replicate (HISTORY * 2 + 1) (zeroPlane s.board_size) }

/-- Source constructor `GoGame.__init__(self, player_color, board_size)` after the colormap
lookup: `color_code` is 1 for `'black'`, 2 for `'white'`. -/
def GoGame.new (E : Engine β) (color_code : Nat) (board_size : Nat) : GoGame β :=
  GoGame.reset E
    { board_size := board_size
      player_color := color_code
      komi := 0
      board := E.create board_size
      done := false
      history := []
      state := [] }

/-- Source method `GoGame._act(self, action)`.  A Python exception raised inside is
modelled by returning the state reached at the raise point (here: always
the unmodified input, since the board assignment is the first mutation
and its right-hand side is what raises) together with the error. -/
def _act (E : Engine β) (s : GoGame β) (action : Nat) :
    GoGame β × Option GoError :=
  match _action_to_coord E s.board action with
  | .error e => (s, some e)
  | .ok c =>
    match E.play s.board c s.player_color with
    | .error e => (s, some e)
    | .ok newBoard =>
      ({ s with
          board := newBoard
          history := E.encode newBoard (s.player_color - 1) :: s.history.dropLast
          player_color := stone_other s.player_color }, none)

/-- Source method `GoGame.play_action(self, action)`.  When an exception escapes
`_act` it is re-raised (`six.reraise`) before the `done`/`state`
assignments run, so the whole state is returned unchanged with the
error. -/
def play_action (E : Engine β) (s : GoGame β) (action : Nat) :
    GoGame β × Option GoError :=
  if s.done then
    ({ s with
        done := E.isTerminal s.board
        state := _format_state s.history s.player_color s.board_size }, none)
  else
    match _act E s action with
    | (s', some e) => (s', some e)
    | (s', none) =>
      ({ s' with
          done := E.isTerminal s'.board
          state := _format_state s'.history s'.player_color s'.board_size }, none)

/-- Source method `GoGame.get_reward(self)`: the exact boolean formula of the source. -/
def get_reward (E : Engine β) (s : GoGame β) : Int :=
  let score := s.komi + E.officialScore s.board
  let white_wins := decide (0 < score)
  let black_wins := decide (score < 0)
  let player_wins := (white_wins && decide (s.player_color = 2)) ||
                     (black_wins && decide (s.player_color = 1))
  if player_wins then 1
  else if Bool.xor white_wins black_wins then -1
  else 0

/-- Source method `GoGame.get_result_string(self)`.  Python's `str` on the float
margin is abstracted as the rendering parameter `numStr`. -/
def get_result_string (numStr : ℚ → String) (E : Engine β) (s : GoGame β) :
    String :=
  let score := s.komi + E.officialScore s.board
  let winner := if 0 < score then "W" else "B"
  if score = 0 then
    winner ++ "+" ++ (if ¬ 0 < score then "W" else "B")
  else
    winner ++ "+" ++ numStr |score|

/-- Iterated `play_action` calls, keeping the state component whether or
not a call raised (a raising call leaves the state unchanged, so the
caller continues from the same state). -/
def playSeq (E : Engine β) (s : GoGame β) (acts : List Nat) : GoGame β :=
  acts.foldl (fun t a => (play_action E t a).1) s

/-- Modelled from the spec: the engine's row/column to native coordinate
map.  Pachi represents positions on a board with a one-cell margin, so
`(i, j)` maps to `(i+1)*(n+2) + (j+1)`; out-of-range indices are
rejected by the engine. -/
def pachi_ij_to_coord (n i j : Nat) : Except GoError Int :=
  if i < n ∧ j < n then .ok (((i + 1) * (n + 2) + (j + 1) : Nat) : Int)
  else .error .outOfBounds

/-- Modelled from the spec: the engine's native coordinate to row/column
decomposition, inverse of `pachi_ij_to_coord` on board points. -/
def pachi_coord_to_ij (n : Nat) (c : Int) : Nat × Nat :=
  (c.toNat / (n + 2) - 1, c.toNat % (n + 2) - 1)

/-- A concrete engine instance whose board handle is just the board
side, used to exercise the coordinate codec; moves, scoring and
termination are inert. -/
def codecEngine : Engine Nat where
  size := fun b => b
  ijToCoord := fun b i j => pachi_ij_to_coord b i j
  coordToIJ := fun b c => pachi_coord_to_ij b c
  play := fun b _ _ => .ok b
  encode := fun b _ => zeroPlane b
  isTerminal := fun _ => false
  officialScore := fun _ => 0
  create := fun n => n
  clone := fun b => b

/-- A concrete engine instance for a 3×3 board whose handle counts the
moves played: every move is accepted, the game is terminal after three
plies (e.g. a stone followed by two passes), and the final area score is
−5 (black ahead). -/
def testEngine : Engine Nat where
  size := fun _ => 3
  ijToCoord := fun _ i j => pachi_ij_to_coord 3 i j
  coordToIJ := fun _ c => pachi_coord_to_ij 3 c
  play := fun b _ _ => .ok (b + 1)
  encode := fun _ _ => zeroPlane 3
  isTerminal := fun b => decide (3 ≤ b)
  officialScore := fun _ => -5
  create := fun _ => 0
  clone := fun b => b

/-- A concrete engine instance for a 9×9 board that accepts every
coordinate its `ijToCoord` is asked for, returning the marker
coordinate 999: it makes visible that the codec performs no range check
of its own and hands out-of-range actions to the engine. -/
def probeEngine : Engine Nat where
  size := fun _ => 9
  ijToCoord := fun _ _ _ => .ok 999
  coordToIJ := fun b c => pachi_coord_to_ij b c
  play := fun b _ _ => .ok (b + 1)
  encode := fun _ _ => zeroPlane 9
  isTerminal := fun _ => false
  officialScore := fun _ => 0
  create := fun _ => 0
  clone := fun b => b

/-- A concrete engine instance for a 3×3 board that rejects every move
as `IllegalMove`. -/
def rejectEngine : Engine Nat where
  size := fun _ => 3
  ijToCoord := fun _ i j => pachi_ij_to_coord 3 i j
  coordToIJ := fun _ c => pachi_coord_to_ij 3 c
  play := fun _ _ _ => .error .illegalMove
  encode := fun _ _ => zeroPlane 3
  isTerminal := fun _ => false
  officialScore := fun _ => 0
  create := fun _ => 0
  clone := fun b => b

/-- A 3×3 game configured for black (`GoGame('black', 3)`) on the test
engine. -/
def g0 : GoGame Nat := GoGame.new testEngine 1 3

/-- State `g0` after black plays point 0. -/
def g1 : GoGame Nat := (play_action testEngine g0 0).1

/-- State `g1` after white passes (action 9 = 3² is PASS). -/
def g2 : GoGame Nat := (play_action testEngine g1 9).1

/-- State `g2` after black passes: three plies, terminal on the test engine. -/
def g3 : GoGame Nat := (play_action testEngine g2 9).1

example : (play_action testEngine g0 0).2 = none := by decide
example : g1.player_color = 2 := by decide
example : g3.done = true := by decide
example : g3.player_color = 2 := by decide
/-- The final score of the `g0 → g3` game: komi 0 plus area score −5. -/
theorem score_g3 : g3.komi + testEngine.officialScore g3.board = -5 := by
  have h : g3.komi = 0 := by decide
  have h2 : testEngine.officialScore g3.board = -5 := rfl
  rw [h, h2]; norm_num

theorem score_g3_neg : g3.komi + testEngine.officialScore g3.board < 0 := by
  rw [score_g3]; norm_num

/-- C10: for every game state, `get_reward` returns a value in
{−1, 0, +1}, and it returns 0 exactly when `komi + official_score` is
zero: a nonzero combined score always yields +1 or −1 through the
boolean formula, so the tie branch is unreachable in decisive
positions. -/
theorem C10_reward_range_and_tie (β : Type) (E : Engine β) (s : GoGame β) :
    (get_reward E s = -1 ∨ get_reward E s = 0 ∨ get_reward E s = 1) ∧
    (get_reward E s = 0 ↔ s.komi + E.officialScore s.board = 0) := by
  unfold get_reward
  rcases lt_trichotomy (s.komi + E.officialScore s.board) 0 with h | h | h
  · have h' : ¬ (0 : ℚ) < s.komi + E.officialScore s.board := by linarith
    by_cases hc : s.player_color = 1 <;> simp [h, h', hc, h.ne]
  · simp [h]
  · have h' : ¬ s.komi + E.officialScore s.board < 0 := by linarith
    by_cases hc : s.player_color = 2 <;> simp [h, h', hc, h.ne']

/-- C1 counterexample: a game configured for black (`player_color='black'`,
code 1) on a 3×3 test engine, in which black plays a stone and both
players then pass.  The game is terminal, the final score is strictly
favorable to the configured black player (−5 < 0), yet `get_reward`
returns −1, not +1: the formula reads `self.player_color`, which has
alternated to WHITE after the three plies, not the configured color. -/
theorem C1_counterexample :
    g0.player_color = 1 ∧
    (play_action testEngine g0 0).2 = none ∧
    (play_action testEngine g1 9).2 = none ∧
    (play_action testEngine g2 9).2 = none ∧
    g3.done = true ∧
    g3.komi + testEngine.officialScore g3.board < 0 ∧
    get_reward testEngine g3 ≠ 1 ∧
    get_reward testEngine g3 = -1 := by
  have hr : get_reward testEngine g3 = -1 := by
    unfold get_reward
    rw [score_g3]
    decide
  exact ⟨by decide, by decide, by decide, by decide, by decide, score_g3_neg,
    by rw [hr]; decide, hr⟩

/-- C1 amended: the reward sign law holds for the color *currently to
move* when `get_reward` is called (the mutated `self.player_color`), not
for the configuration-time color: if the score sign strictly favours the
color to move the reward is +1, if it strictly disfavours it the reward
is −1. -/
theorem C1_amended_reward_sign (β : Type) (E : Engine β) (s : GoGame β) :
    (s.player_color = 1 → s.komi + E.officialScore s.board < 0 →
      get_reward E s = 1) ∧
    (s.player_color = 2 → 0 < s.komi + E.officialScore s.board →
      get_reward E s = 1) ∧
    (s.player_color = 1 → 0 < s.komi + E.officialScore s.board →
      get_reward E s = -1) ∧
    (s.player_color = 2 → s.komi + E.officialScore s.board < 0 →
      get_reward E s = -1) := by
  unfold get_reward
  refine ⟨fun hc h => ?_, fun hc h => ?_, fun hc h => ?_, fun hc h => ?_⟩
  · have h' : ¬ (0 : ℚ) < s.komi + E.officialScore s.board := by linarith
    simp [h, h', hc]
  · have h' : ¬ s.komi + E.officialScore s.board < 0 := by linarith
    simp [h, h', hc]
  · have h' : ¬ s.komi + E.officialScore s.board < 0 := by linarith
    simp [h, h', hc]
  · have h' : ¬ (0 : ℚ) < s.komi + E.officialScore s.board := by linarith
    simp [h, h', hc]

/-- Witness for the amended C1 at the concrete terminal game `g3`:
white to move, score −5 strictly unfavorable to white, reward −1. -/
theorem C1_amended_witness :
    g3.player_color = 2 ∧ g3.komi + testEngine.officialScore g3.board < 0 ∧
    get_reward testEngine g3 = -1 :=
  ⟨by decide, score_g3_neg,
    (C1_amended_reward_sign Nat testEngine g3).2.2.2 (by decide) score_g3_neg⟩

/-- C8: for every terminal game with `score = komi + official_score`,
`get_result_string` returns `"W+"` (score > 0) or `"B+"` (score < 0)
followed by the rendering of `abs(score)`, and on an exact tie returns
the sign-flip winner label `"B"` followed by `"+"` and the opposite
label, i.e. `"B+W"`. -/
theorem C8_result_string (numStr : ℚ → String) (β : Type) (E : Engine β)
    (s : GoGame β) :
    (0 < s.komi + E.officialScore s.board →
      get_result_string numStr E s =
        "W+" ++ numStr |s.komi + E.officialScore s.board|) ∧
    (s.komi + E.officialScore s.board < 0 →
      get_result_string numStr E s =
        "B+" ++ numStr |s.komi + E.officialScore s.board|) ∧
    (s.komi + E.officialScore s.board = 0 →
      get_result_string numStr E s = "B+W") := by
  refine ⟨fun h => ?_, fun h => ?_, fun h => ?_⟩
  · simp only [get_result_string, if_pos h, if_neg h.ne']
    rfl
  · have h' : ¬ (0 : ℚ) < s.komi + E.officialScore s.board := by linarith
    simp only [get_result_string, if_neg h', if_neg h.ne]
    rfl
  · simp only [get_result_string, h, lt_irrefl, if_false, if_pos rfl]
    rfl

/-- Witness for C8 at the concrete terminal game `g3` (score −5,
black wins). -/
theorem C8_witness :
    get_result_string (fun _ => "5") testEngine g3 = "B+5" :=
  (C8_result_string (fun _ => "5") Nat testEngine g3).2.1 score_g3_neg

/-- C7: for every history buffer of depth 2·HISTORY and any to-move
color, `_format_state` returns the history planes followed by exactly
one constant plane of the color's code (0 for black = 1, 1 for
white = 2), so the result has depth 2·HISTORY + 1; the function is pure
(`np.concatenate` allocates, mutating neither input). -/
theorem C7_format_state_shape (hst : List Plane) (c n : Nat)
    (hlen : hst.length = HISTORY * 2) :
    (_format_state hst c n).length = HISTORY * 2 + 1 ∧
    _format_state hst c n = hst ++ [constPlane n ((c : Int) - 1)] ∧
    (c = 1 → ∀ row ∈ constPlane n ((c : Int) - 1), ∀ x ∈ row, x = 0) ∧
    (c = 2 → ∀ row ∈ constPlane n ((c : Int) - 1), ∀ x ∈ row, x = 1) := by
  refine ⟨?_, rfl, ?_, ?_⟩
  · simp [_format_state, hlen]
  · rintro rfl row hrow x hx
    rw [List.eq_of_mem_replicate hrow] at hx
    rw [List.eq_of_mem_replicate hx]
    decide
  · rintro rfl row hrow x hx
    rw [List.eq_of_mem_replicate hrow] at hx
    rw [List.eq_of_mem_replicate hx]
    decide

/-- Witness for C7 at a concrete 2·HISTORY-deep buffer on a 3×3 board,
with white (code 2) to move. -/
theorem C7_witness :
    (_format_state (List.replicate 16 (zeroPlane 3)) 2 3).length =
      HISTORY * 2 + 1 :=
  (C7_format_state_shape (List.replicate 16 (zeroPlane 3)) 2 3 (by decide)).1

/-- C4: when the codec accepts the action but the engine rejects the
move as `IllegalMove`, `play_action` propagates exactly that error and
returns the environment state unchanged in every field (board handle,
history, to-move color, done flag, state tensor). -/
theorem C4_illegal_move_frame (β : Type) (E : Engine β) (s : GoGame β)
    (a : Nat) (c : Int) (hdone : s.done = false)
    (hcoord : _action_to_coord E s.board a = .ok c)
    (hplay : E.play s.board c s.player_color = .error .illegalMove) :
    play_action E s a = (s, some .illegalMove) := by
  unfold play_action _act
  simp [hdone, hcoord, hplay]

/-- Witness for C4: a fresh 3×3 game on the always-rejecting engine;
point action 0 maps to native coordinate 6 and is rejected. -/
theorem C4_witness :
    play_action rejectEngine (GoGame.new rejectEngine 1 3) 0 =
      (GoGame.new rejectEngine 1 3, some GoError.illegalMove) :=
  C4_illegal_move_frame Nat rejectEngine (GoGame.new rejectEngine 1 3) 0 6
    (by decide) (by decide) (by decide)

/-- Every state produced by a successful `play_action` call satisfies:
its `done` flag equals the engine's terminal predicate on its board, and
its `state` tensor is `_format_state` of its history and color. -/
theorem play_action_coherent (E : Engine β) (s₀ : GoGame β) (a₀ : Nat)
    (s : GoGame β) (hprev : play_action E s₀ a₀ = (s, none)) :
    s.done = E.isTerminal s.board ∧
    s.state = _format_state s.history s.player_color s.board_size := by
  unfold play_action at hprev
  by_cases hd : s₀.done
  · rw [if_pos hd, Prod.mk.injEq] at hprev
    obtain ⟨h1, -⟩ := hprev
    subst h1
    exact ⟨rfl, rfl⟩
  · rw [if_neg hd] at hprev
    rcases hact : _act E s₀ a₀ with ⟨s', err⟩
    rw [hact] at hprev
    cases err with
    | some e => simp at hprev
    | none =>
      rw [Prod.mk.injEq] at hprev
      obtain ⟨h1, -⟩ := hprev
      subst h1
      exact ⟨rfl, rfl⟩

/-- C5: once `done` is true, every further `play_action` call — with any
action — returns the state unchanged (in particular `done` stays true
and the state tensor equals the one the previous call returned), and no
board, history, or color mutation occurs.  The hypothesis `hprev` says
`s` is the result of the previous (successful) `step` call. -/
theorem C5_terminal_monotone (β : Type) (E : Engine β) (s₀ : GoGame β)
    (a₀ : Nat) (s : GoGame β) (hprev : play_action E s₀ a₀ = (s, none))
    (hdone : s.done = true) (a : Nat) :
    play_action E s a = (s, none) := by
  obtain ⟨h1, h2⟩ := play_action_coherent E s₀ a₀ s hprev
  unfold play_action
  rw [if_pos hdone, ← h1, ← h2]

/-- Witness for C5: `g3` is terminal after black's stone and two passes;
a further step with action 0 is the identity. -/
theorem C5_witness : play_action testEngine g3 0 = (g3, none) :=
  C5_terminal_monotone Nat testEngine g2 9 g3 (by decide) (by decide) 0

/-- C2: for every board side `n ≥ 1` and every action `a ≤ n² + 1`,
translating `a` to a native coordinate and back yields `a`; PASS is
index `n²`, RESIGN is `n² + 1`, and ordinary points round-trip through
the row-major encoding `row * n + col`. -/
theorem C2_codec_round_trip (n a : Nat) (hn : 1 ≤ n) (ha : a ≤ n ^ 2 + 1) :
    (_action_to_coord codecEngine n a).map (_coord_to_action codecEngine n) =
      .ok a ∧
    _action_to_coord codecEngine n (n ^ 2) = .ok PASS_COORD ∧
    _action_to_coord codecEngine n (n ^ 2 + 1) = .ok RESIGN_COORD ∧
    _coord_to_action codecEngine n PASS_COORD = n ^ 2 ∧
    _coord_to_action codecEngine n RESIGN_COORD = n ^ 2 + 1 := by
  have hpass : _action_to_coord codecEngine n (n ^ 2) = .ok PASS_COORD := by
    simp [_action_to_coord, _pass_action, codecEngine]
  have hresign : _action_to_coord codecEngine n (n ^ 2 + 1) =
      .ok RESIGN_COORD := by
    simp [_action_to_coord, _pass_action, _resign_action, codecEngine]
  have hc2a_pass : _coord_to_action codecEngine n PASS_COORD = n ^ 2 := by
    simp [_coord_to_action, _pass_action, codecEngine]
  have hc2a_resign : _coord_to_action codecEngine n RESIGN_COORD =
      n ^ 2 + 1 := by
    simp [_coord_to_action, _pass_action, _resign_action, codecEngine,
      PASS_COORD, RESIGN_COORD]
  refine ⟨?_, hpass, hresign, hc2a_pass, hc2a_resign⟩
  by_cases hp : a = n ^ 2
  · subst hp
    rw [hpass]
    simpa [Except.map] using hc2a_pass
  by_cases hr : a = n ^ 2 + 1
  · subst hr
    rw [hresign]
    simpa [Except.map] using hc2a_resign
  -- ordinary board point: a < n²
  have hlt : a < n ^ 2 := by omega
  have hn' : 0 < n := hn
  have hi : a / n < n := by
    rw [Nat.div_lt_iff_lt_mul hn']
    calc a < n ^ 2 := hlt
    _ = n * n := by ring
  have hj : a % n < n := Nat.mod_lt _ hn'
  have hcoord : _action_to_coord codecEngine n a =
      .ok (((a / n + 1) * (n + 2) + (a % n + 1) : Nat) : Int) := by
    simp only [_action_to_coord, _pass_action, _resign_action, codecEngine]
    rw [if_neg hp, if_neg hr]
    simp [pachi_ij_to_coord, hi, hj]
  rw [hcoord]
  simp only [Except.map]
  have hkey : ((a / n + 1) * (n + 2) + (a % n + 1)) =
      (a % n + 1) + (n + 2) * (a / n + 1) := by ring
  have hdiv : ((a / n + 1) * (n + 2) + (a % n + 1)) / (n + 2) = a / n + 1 := by
    rw [hkey, Nat.add_mul_div_left _ _ (by omega : 0 < n + 2),
      Nat.div_eq_of_lt (by omega), Nat.zero_add]
  have hmod : ((a / n + 1) * (n + 2) + (a % n + 1)) % (n + 2) = a % n + 1 := by
    rw [hkey, Nat.add_mul_mod_self_left, Nat.mod_eq_of_lt (by omega)]
  have hne1 : (((a / n + 1) * (n + 2) + (a % n + 1) : Nat) : Int) ≠
      PASS_COORD := by
    simp only [PASS_COORD]
    omega
  have hne2 : (((a / n + 1) * (n + 2) + (a % n + 1) : Nat) : Int) ≠
      RESIGN_COORD := by
    simp only [RESIGN_COORD]
    omega
  rw [Except.ok.injEq]
  simp only [_coord_to_action, codecEngine]
  rw [if_neg hne1, if_neg hne2]
  simp only [pachi_coord_to_ij, Int.toNat_natCast]
  rw [hdiv, hmod]
  simp only [Nat.add_sub_cancel]
  have hdm := Nat.div_add_mod a n
  rw [Nat.mul_comm]
  omega

/-- Witness for C2 on a 9×9 board at action 5 (row 0, column 5). -/
theorem C2_witness :
    (_action_to_coord codecEngine 9 5).map (_coord_to_action codecEngine 9) =
      .ok 5 :=
  (C2_codec_round_trip 9 5 (by decide) (by decide)).1

/-- C3 counterexample: the codec performs no range check of its own.
With an engine that answers every row/column query (returning the marker
coordinate 999), `step` on the out-of-range action 83 of a fresh 9×9
game raises nothing at all — the action reaches the engine and the move
is played; and `_action_to_coord` returns whatever the engine's
`ij_to_coord` returns.  With the bounds-checking engine model the
failure that does occur is the engine's own out-of-bounds rejection,
not a codec-level `InvalidAction` raised before the engine is
reached. -/
theorem C3_counterexample :
    (play_action probeEngine (GoGame.new probeEngine 1 9) 83).2 = none ∧
    _action_to_coord probeEngine (GoGame.new probeEngine 1 9).board 83 =
      .ok 999 ∧
    _action_to_coord codecEngine 9 83 = .error .outOfBounds ∧
    _action_to_coord codecEngine 9 83 ≠ .error .invalidAction := by
  exact ⟨by decide, by decide, by decide, by decide⟩

/-- C3 amended: an action strictly greater than `boardSize² + 1` is not
rejected by the codec; it is handed to the engine's coordinate
decomposition, which rejects the out-of-range row index, and that error
propagates through `step` leaving the entire environment state (board
handle, history buffer, to-move color, done flag, state tensor)
unchanged.  The hypothesis `hE` is the engine contract that
`ij_to_coord` rejects a row index at or beyond the board side. -/
theorem C3_amended_out_of_range (β : Type) (E : Engine β)
    (hE : ∀ b i j, E.size b ≤ i → E.ijToCoord b i j = .error .outOfBounds)
    (s : GoGame β) (a : Nat) (hdone : s.done = false)
    (ha : E.size s.board ^ 2 + 1 < a) :
    play_action E s a = (s, some .outOfBounds) := by
  have hne1 : a ≠ _pass_action (E.size s.board) := by
    unfold _pass_action; omega
  have hne2 : a ≠ _resign_action (E.size s.board) := by
    unfold _resign_action; omega
  have hdivge : E.size s.board ≤ a / E.size s.board := by
    rcases Nat.eq_zero_or_pos (E.size s.board) with h0 | hpos
    · simp [h0]
    · rw [Nat.le_div_iff_mul_le hpos]
      have hsq : E.size s.board ^ 2 = E.size s.board * E.size s.board := by
        ring
      omega
  have hcoord : _action_to_coord E s.board a = .error .outOfBounds := by
    unfold _action_to_coord
    rw [if_neg hne1, if_neg hne2, hE s.board _ _ hdivge]
  unfold play_action _act
  simp [hdone, hcoord]

/-- Witness for the amended C3: a fresh 9×9 game on the bounds-checking
engine model; action 83 = 9² + 2 steps to the out-of-bounds error with
the state unchanged. -/
theorem C3_amended_witness :
    play_action codecEngine (GoGame.new codecEngine 1 9) 83 =
      (GoGame.new codecEngine 1 9, some GoError.outOfBounds) :=
  C3_amended_out_of_range Nat codecEngine
    (fun b i j hb => by
      simp only [codecEngine] at hb ⊢
      simp only [pachi_ij_to_coord]
      rw [if_neg (by omega)])
    (GoGame.new codecEngine 1 9) 83 (by decide) (by decide)

/-- A single `play_action` call preserves the history-buffer shape
invariant: the buffer keeps exactly its 2·HISTORY planes, all of board
shape, whether the call is a terminal no-op, a raising call (state
unchanged) or a successful move (rotation). -/
theorem history_invariant_step (E : Engine β) (n : Nat)
    (hE : ∀ b c, shapedPlane n (E.encode b c)) (s : GoGame β) (a : Nat)
    (hlen : s.history.length = HISTORY * 2)
    (hsh : ∀ p ∈ s.history, shapedPlane n p) :
    (play_action E s a).1.history.length = HISTORY * 2 ∧
    ∀ p ∈ (play_action E s a).1.history, shapedPlane n p := by
  by_cases hd : s.done
  · simp only [play_action, if_pos hd]
    exact ⟨hlen, hsh⟩
  · cases hc : _action_to_coord E s.board a with
    | error e =>
      simp only [play_action, _act, if_neg hd, hc]
      exact ⟨hlen, hsh⟩
    | ok c =>
      cases hp : E.play s.board c s.player_color with
      | error e =>
        simp only [play_action, _act, if_neg hd, hc, hp]
        exact ⟨hlen, hsh⟩
      | ok nb =>
        simp only [play_action, _act, if_neg hd, hc, hp]
        constructor
        · simp only [List.length_cons, List.length_dropLast, hlen]
          decide
        · intro p hmem
          rcases List.mem_cons.mp hmem with rfl | hmem'
          · exact hE nb _
          · exact hsh p ((List.dropLast_sublist s.history).subset hmem')

/-- The shape invariant is preserved along any `step` sequence. -/
theorem history_invariant_seq (E : Engine β) (n : Nat)
    (hE : ∀ b c, shapedPlane n (E.encode b c)) (acts : List Nat) :
    ∀ s : GoGame β, s.history.length = HISTORY * 2 →
      (∀ p ∈ s.history, shapedPlane n p) →
      (playSeq E s acts).history.length = HISTORY * 2 ∧
      ∀ p ∈ (playSeq E s acts).history, shapedPlane n p := by
  induction acts with
  | nil => exact fun s h1 h2 => ⟨h1, h2⟩
  | cons a as ih =>
    intro s h1 h2
    have hstep := history_invariant_step E n hE s a h1 h2
    exact ih _ hstep.1 hstep.2

/-- C6: starting from a freshly constructed game (which holds exactly
2·HISTORY zero planes of board shape) and applying any sequence of
`step` calls, the history buffer always holds exactly 2·HISTORY planes,
each of shape `boardSize × boardSize`; and every successful move from a
non-terminal state rotates the buffer — the back plane is evicted, the
rest shift back, and the mover's own post-move occupancy plane
(`board.encode()[mover]`) is inserted at the front — so the buffer never
grows or shrinks.  `hE` is the engine contract that encoded planes have
board shape. -/
theorem C6_history_ring_buffer (β : Type) (E : Engine β) (color n : Nat)
    (acts : List Nat) (hE : ∀ b c, shapedPlane n (E.encode b c)) :
    ((playSeq E (GoGame.new E color n) acts).history.length = HISTORY * 2 ∧
      ∀ p ∈ (playSeq E (GoGame.new E color n) acts).history,
        shapedPlane n p) ∧
    (∀ (s s' : GoGame β) (a : Nat), s.done = false →
      play_action E s a = (s', none) →
      s'.history =
        E.encode s'.board (s.player_color - 1) :: s.history.dropLast ∧
      (s.history.length = HISTORY * 2 →
        s'.history.length = s.history.length)) := by
  constructor
  · refine history_invariant_seq E n hE acts (GoGame.new E color n) ?_ ?_
    · simp [GoGame.new, GoGame.reset]
    · intro p hp
      rw [List.eq_of_mem_replicate hp]
      refine ⟨by simp [zeroPlane], fun row hr => ?_⟩
      rw [List.eq_of_mem_replicate hr]
      simp
  · intro s s' a hd hsucc
    have hd' : ¬ s.done = true := by simp [hd]
    cases hc : _action_to_coord E s.board a with
    | error e =>
      simp only [play_action, _act, if_neg hd', hc] at hsucc
      simp at hsucc
    | ok c =>
      cases hp : E.play s.board c s.player_color with
      | error e =>
        simp only [play_action, _act, if_neg hd', hc, hp] at hsucc
        simp at hsucc
      | ok nb =>
        simp only [play_action, _act, if_neg hd', hc, hp] at hsucc
        rw [Prod.mk.injEq] at hsucc
        obtain ⟨h1, -⟩ := hsucc
        subst h1
        refine ⟨rfl, fun hlen16 => ?_⟩
        simp only [List.length_cons, List.length_dropLast, hlen16]
        decide

/-- Witness for C6: the three-ply game on the test engine keeps exactly
2·HISTORY planes in its history buffer. -/
theorem C6_witness :
    (playSeq testEngine (GoGame.new testEngine 1 3) [0, 9, 9]).history.length =
      HISTORY * 2 :=
  (C6_history_ring_buffer Nat testEngine 1 3 [0, 9, 9]
    (fun b c => by
      show shapedPlane 3 (zeroPlane 3)
      decide)).1.1

/-- A store of board-engine handles, modelling Python object identity
for the deep-copy claim: `mem r` is the board object at reference `r`,
`next` is the next fresh reference.  The engine's board operations
(`play`, `CreateBoard`, `clone`) each return a new object, which the
adapter binds over `self.board`, so existing cells are never
overwritten — only fresh ones are allocated. -/
structure Store (β : Type) where
  mem : Nat → β
  next : Nat

/-- Allocate a fresh cell holding `b`; returns the new store and the
fresh reference. -/
def Store.alloc (st : Store β) (b : β) : Store β × Nat :=
  ({ mem := fun r => if r = st.next then b else st.mem r,
     next := st.next + 1 }, st.next)

/-- Structure `GoGame` at the handle level: the board field is a store reference
instead of a value, so handle aliasing between instances is
observable. -/
structure HGame where
  board_size : Nat
  player_color : Nat
  komi : ℚ
  boardRef : Nat
  done : Bool
  history : List Plane
  state : List Plane

/-- Source method `GoGame.play_action` at the handle level: a successful move obtains
a fresh board object from `board.play` and rebinds `self.board` to it;
the previous object's cell is untouched. -/
def play_action_h (E : Engine β) (st : Store β) (s : HGame) (a : Nat) :
    Store β × HGame × Option GoError :=
  let b := st.mem s.boardRef
  if s.done then
    (st,
     { s with
       done := E.isTerminal b
       state := _format_state s.history s.player_color s.board_size },
     none)
  else
    match _action_to_coord E b a with
    | .error e => (st, s, some e)
    | .ok c =>
      match E.play b c s.player_color with
      | .error e => (st, s, some e)
      | .ok nb =>
        let al := st.alloc nb
        let s2 : HGame :=
          { s with
            boardRef := al.2
            history := E.encode nb (s.player_color - 1) :: s.history.dropLast
            player_color := stone_other s.player_color }
        (al.1,
         { s2 with
           done := E.isTerminal nb
           state := _format_state s2.history s2.player_color s2.board_size },
         none)

/-- Source method `GoGame.reset` at the handle level: acquires a fresh board object
and rebinds `self.board`, discarding (not mutating) the old handle. -/
def reset_h (E : Engine β) (st : Store β) (s : HGame) : Store β × HGame :=
  let al := st.alloc (E.create s.board_size)
  (al.1,
   { s with
     komi := _komi s.board_size
     boardRef := al.2
     done := false
     history := List.replicate (HISTORY * 2) (zeroPlane s.board_size)
     state := List.replicate (HISTORY * 2 + 1) (zeroPlane s.board_size) })

/-- Source method `GoGame.__deepcopy__`: clones the board handle
(`self.board.clone()`) into a fresh object and deep-copies every other
field (plain immutable values in this model). -/
def deepcopy_h (E : Engine β) (st : Store β) (s : HGame) : Store β × HGame :=
  let al := st.alloc (E.clone (st.mem s.boardRef))
  (al.1, { s with boardRef := al.2 })

/-- Allocation leaves every previously valid cell unchanged. -/
theorem alloc_preserves (st : Store β) (b : β) (r : Nat) (hr : r < st.next) :
    (st.alloc b).1.mem r = st.mem r := by
  show (if r = st.next then b else st.mem r) = st.mem r
  rw [if_neg (by omega)]

/-- A handle-level `step` leaves every previously valid cell unchanged. -/
theorem play_action_h_preserves (E : Engine β) (st : Store β) (s : HGame)
    (a : Nat) (r : Nat) (hr : r < st.next) :
    (play_action_h E st s a).1.mem r = st.mem r := by
  by_cases hd : s.done
  · simp only [play_action_h, if_pos hd]
  · cases hc : _action_to_coord E (st.mem s.boardRef) a with
    | error e => simp only [play_action_h, if_neg hd, hc]
    | ok c =>
      cases hp : E.play (st.mem s.boardRef) c s.player_color with
      | error e => simp only [play_action_h, if_neg hd, hc, hp]
      | ok nb =>
        simp only [play_action_h, if_neg hd, hc, hp]
        exact alloc_preserves st nb r hr

/-- A handle-level `reset` leaves every previously valid cell
unchanged. -/
theorem reset_h_preserves (E : Engine β) (st : Store β) (s : HGame)
    (r : Nat) (hr : r < st.next) :
    (reset_h E st s).1.mem r = st.mem r :=
  alloc_preserves st _ r hr

/-- C9: deep-copying an environment yields an independent instance: the
copy's board handle is a freshly cloned object, not an alias of the
original's; the original's board object is untouched by the copy
operation; and subsequent `step` or `reset` calls on either instance
leave the other instance's board object (and, the fields being
immutable values, all its other fields) unchanged, in both
directions. -/
theorem C9_deepcopy_independent (β : Type) (E : Engine β) (st : Store β)
    (s : HGame) (a : Nat) (href : s.boardRef < st.next) :
    (deepcopy_h E st s).2.boardRef ≠ s.boardRef ∧
    (deepcopy_h E st s).1.mem s.boardRef = st.mem s.boardRef ∧
    (deepcopy_h E st s).1.mem (deepcopy_h E st s).2.boardRef =
      E.clone (st.mem s.boardRef) ∧
    (play_action_h E (deepcopy_h E st s).1 (deepcopy_h E st s).2 a).1.mem
        s.boardRef = st.mem s.boardRef ∧
    (play_action_h E (deepcopy_h E st s).1 s a).1.mem
        (deepcopy_h E st s).2.boardRef =
      (deepcopy_h E st s).1.mem (deepcopy_h E st s).2.boardRef ∧
    (reset_h E (deepcopy_h E st s).1 (deepcopy_h E st s).2).1.mem
        s.boardRef = st.mem s.boardRef ∧
    (reset_h E (deepcopy_h E st s).1 s).1.mem
        (deepcopy_h E st s).2.boardRef =
      (deepcopy_h E st s).1.mem (deepcopy_h E st s).2.boardRef := by
  have hb : (deepcopy_h E st s).2.boardRef = st.next := rfl
  have hnext : (deepcopy_h E st s).1.next = st.next + 1 := rfl
  have hpres : (deepcopy_h E st s).1.mem s.boardRef = st.mem s.boardRef :=
    alloc_preserves st _ s.boardRef href
  refine ⟨by rw [hb]; omega, hpres, ?_, ?_, ?_, ?_, ?_⟩
  · simp [deepcopy_h, Store.alloc]
  · rw [play_action_h_preserves E _ _ a s.boardRef (by rw [hnext]; omega)]
    exact hpres
  · exact play_action_h_preserves E _ s a _ (by rw [hnext, hb]; omega)
  · rw [reset_h_preserves E _ _ s.boardRef (by rw [hnext]; omega)]
    exact hpres
  · exact reset_h_preserves E _ s _ (by rw [hnext, hb]; omega)

/-- A concrete one-cell store and a handle-level 9×9 game for the C9
witness. -/
def st0 : Store Nat := { mem := fun _ => 9, next := 1 }

/-- A handle-level game whose board handle is the store's cell 0. -/
def hg0 : HGame :=
  { board_size := 9
    player_color := 1
    komi := 0
    boardRef := 0
    done := false
    history := List.replicate 16 (zeroPlane 9)
    state := List.replicate 17 (zeroPlane 9) }

/-- Witness for C9 on the concrete store: the copy gets a fresh
reference, and stepping the copy does not touch the original's cell. -/
theorem C9_witness :
    (deepcopy_h codecEngine st0 hg0).2.boardRef ≠ hg0.boardRef ∧
    (deepcopy_h codecEngine st0 hg0).1.mem hg0.boardRef =
      st0.mem hg0.boardRef ∧
    (play_action_h codecEngine (deepcopy_h codecEngine st0 hg0).1
        (deepcopy_h codecEngine st0 hg0).2 0).1.mem hg0.boardRef =
      st0.mem hg0.boardRef :=
  have h := C9_deepcopy_independent Nat codecEngine st0 hg0 0 (by decide)
  ⟨h.1, h.2.1, h.2.2.2.1⟩

/-- Witness for C10 at the concrete terminal game `g3`: its reward is in
the allowed range. -/
theorem C10_witness :
    get_reward testEngine g3 = -1 ∨ get_reward testEngine g3 = 0 ∨
      get_reward testEngine g3 = 1 :=
  (C10_reward_range_and_tie Nat testEngine g3).1
